import Mathlib

/-!
Shallow embedding of the VMAF quality-runner module
(src/python/src/vmaf/core/quality_runner.py).

Numeric values are modelled as rationals. Python dictionary values that the
code inspects dynamically (booleans, strings, None) are modelled by the
PyVal type, so that identity checks such as `is True` and string equality
checks such as `== 'true'` can be stated faithfully.
-/

namespace VmafQR

/-- Python runtime values appearing in the optional dictionaries the code
inspects: booleans, strings, numbers and None. -/
inductive PyVal where
  | pybool : Bool → PyVal
  | pystr : String → PyVal
  | pynum : ℚ → PyVal
  | pynone : PyVal
deriving DecidableEq, Repr

/-- Python comparison `v == 'true'` for the modelled value types: only the
exact string true compares equal (in Python, True == 'true' is False). -/
def pyEqStrTrue : PyVal → Bool
  | .pystr s => s = "true"
  | _ => false

/-- Combined check `'k' in d and d['k'] == 'true'` on an optional field. -/
def pyEqStrTrueOpt : Option PyVal → Bool
  | some v => pyEqStrTrue v
  | none => false

/-- QualityRunner.get_scores_key: the result key derived from a runner type. -/
def get_scores_key (ty : String) : String := ty ++ "_scores"

/-- QualityRunner.get_score_key: the single-score key derived from a type. -/
def get_score_key (ty : String) : String := ty ++ "_score"

/-- np.clip on a scalar: clamp v into the interval from lb to ub. -/
def npClip (v lb ub : ℚ) : ℚ := min (max v lb) ub

/-- VmafLegacyQualityRunner._post_correction: motion-dependent correction of
an SVM-predicted score, followed by clamping the score into 0..100 via the
if/elif chain of the source. -/
def post_correction (motion score : ℚ) : ℚ :=
  let score1 :=
    if motion > 12 then
      score * (((if motion > 20 then (20 : ℚ) else motion) - 12) * 0.015 + 1)
    else score
  if score1 > 100 then (100 : ℚ)
  else if score1 < 0 then (0 : ℚ)
  else score1

/-- VmafLegacyQualityRunner._rescale: clip each value into the bound pair,
then map linearly onto the unit interval. -/
def rescale (vals : List ℚ) (lower_upper_bound : ℚ × ℚ) : List ℚ :=
  vals.map (fun v =>
    (npClip v lower_upper_bound.1 lower_upper_bound.2 - lower_upper_bound.1) /
      (lower_upper_bound.2 - lower_upper_bound.1))

/-- The score_transform metadata dictionary of a model: optional polynomial
coefficients p0, p1, p2 and optional rectification entries out_lte_in and
out_gte_in (whose dictionary values the code compares with the string true). -/
structure TransformDict where
  p0 : Option ℚ
  p1 : Option ℚ
  p2 : Option ℚ
  out_lte_in : Option PyVal
  out_gte_in : Option PyVal
deriving DecidableEq, Repr

/-- A TrainTestModel as consumed by VmafQualityRunner: an opaque predict
function plus the two optional metadata entries score_transform and
score_clip looked up via get_appended_info. -/
structure TTModel where
  predict : List (List ℚ) → List ℚ
  score_transform : Option TransformDict
  score_clip : Option (ℚ × ℚ)

/-- VmafQualityRunner.transform_score: polynomial transform of the predicted
scores followed by rectification, a no-op when the model declares no
score_transform metadata. The numpy elementwise operations are modelled as a
map over the score list. -/
def transform_score (model : TTModel) (ys_pred : List ℚ) : List ℚ :=
  match model.score_transform with
  | none => ys_pred
  | some transform_dict =>
    ys_pred.map (fun y_in =>
      let y_out : ℚ := 0
      let y_out := match transform_dict.p0 with
        | some c => y_out + c
        | none => y_out
      let y_out := match transform_dict.p1 with
        | some c => y_out + c * y_in
        | none => y_out
      let y_out := match transform_dict.p2 with
        | some c => y_out + c * y_in * y_in
        | none => y_out
      let y_out := if pyEqStrTrueOpt transform_dict.out_lte_in then min y_out y_in else y_out
      let y_out := if pyEqStrTrueOpt transform_dict.out_gte_in then max y_out y_in else y_out
      y_out)

/-- VmafQualityRunner.clip_score: clip predicted scores into the model's
declared score_clip bounds, a no-op when the model declares none. -/
def clip_score (model : TTModel) (ys_pred : List ℚ) : List ℚ :=
  match model.score_clip with
  | none => ys_pred
  | some lb_ub => ys_pred.map (fun y => npClip y lb_ub.1 lb_ub.2)

/-- The optional keyword arguments consumed by predict_with_model. A field
holding none models an absent dictionary key; some v models a present key
with Python value v. -/
structure Kwargs where
  disable_clip_score : Option PyVal
  enable_transform_score : Option PyVal
deriving DecidableEq, Repr

/-- VmafQualityRunner._do_transform_score: the key enable_transform_score is
present and its value is the Python singleton True. -/
def do_transform_score (kwargs : Kwargs) : Bool :=
  match kwargs.enable_transform_score with
  | some (.pybool true) => true
  | _ => false

/-- VmafPhoneQualityRunner._do_transform_score: unconditionally true. -/
def phone_do_transform_score (_kwargs : Kwargs) : Bool := true

/-- The body of VmafQualityRunner.predict_with_model, parametrised by the
_do_transform_score classmethod that the phone subclass overrides. -/
def predict_with_model_core (dts : Kwargs → Bool) (model : TTModel)
    (xs : List (List ℚ)) (kwargs : Kwargs) : List ℚ :=
  let ys_pred := model.predict xs
  let ys_pred := if dts kwargs then transform_score model ys_pred else ys_pred
  if kwargs.disable_clip_score = some (PyVal.pybool true) then ys_pred
  else clip_score model ys_pred

/-- VmafQualityRunner.predict_with_model. -/
def predict_with_model : TTModel → List (List ℚ) → Kwargs → List ℚ :=
  predict_with_model_core do_transform_score

/-- VmafPhoneQualityRunner.predict_with_model: the inherited classmethod
dispatches to the overridden _do_transform_score. -/
def phone_predict_with_model : TTModel → List (List ℚ) → Kwargs → List ℚ :=
  predict_with_model_core phone_do_transform_score

/-- VmafPhoneQualityRunner._assert_args, restricted to the check the phone
subclass adds: when an optional dictionary is supplied it must not contain
the key enable_transform_score at all (whatever its value). Returns true
when the assertion passes. -/
def phone_assert_args (optional_dict : Option Kwargs) : Bool :=
  match optional_dict with
  | none => true
  | some kwargs => kwargs.enable_transform_score = none

/-- PsnrQualityRunner.TYPE. -/
def PSNR_TYPE : String := "PSNR"

/-- The loop of PsnrQualityRunner._get_quality_scores over per-line regex
match results: a line either fails to match (none) or yields a frame index
and a value. Each matched index must equal the running counter (the assert
of the source, modelled as the none result), and matched values are
collected in line order. -/
def psnr_scan : List (Option (ℕ × ℚ)) → ℕ → Option (List ℚ)
  | [], _ => some []
  | none :: rest, counter => psnr_scan rest counter
  | some (cur_idx, v) :: rest, counter =>
    if cur_idx = counter then
      (psnr_scan rest (counter + 1)).map (fun scores => v :: scores)
    else none

/-- PsnrQualityRunner._get_quality_scores: scan the matched lines with a
counter starting at 0, fail (none) on any index mismatch, fail on an empty
score list, and otherwise return the result dictionary keyed by the
runner's scores key. -/
def psnr_quality_scores (records : List (Option (ℕ × ℚ))) :
    Option (List (String × List ℚ)) :=
  match psnr_scan records 0 with
  | none => none
  | some psnr_scores =>
    if psnr_scores.length ≠ 0 then
      some [(get_scores_key PSNR_TYPE, psnr_scores)]
    else none

/-- VmafossExecQualityRunner.TYPE. -/
def VMAFOSSEXEC_TYPE : String := "VMAFOSSEXEC"

/-- VmafossExecQualityRunner.FEATURES. -/
def FEATURES : List String :=
  ["adm2", "adm_scale0", "adm_scale1", "adm_scale2", "adm_scale3",
   "motion", "vif_scale0", "vif_scale1", "vif_scale2",
   "vif_scale3", "vif", "psnr", "ssim", "ms_ssim", "motion2"]

/-- VmafossExecQualityRunner.get_feature_scores_key. -/
def get_feature_scores_key (atom_feature : String) : String :=
  VMAFOSSEXEC_TYPE ++ "_" ++ atom_feature ++ "_scores"

/-- Collection of the mandatory vmaf attribute of every frame record: a
frame whose attribute dictionary lacks the vmaf key raises KeyError in the
source, modelled as the none result. -/
def vmaf_scores_of_frames : List (List (String × ℚ)) → Option (List ℚ)
  | [] => some []
  | frame :: rest =>
    match List.lookup "vmaf" frame with
    | none => none
    | some v => (vmaf_scores_of_frames rest).map (fun scores => v :: scores)

/-- The per-feature entries of the vmafossexec result: for each declared
feature, the values of the frames that carry it (a frame missing the
attribute is skipped via the try/except of the source); a feature carried
by no frame contributes no entry. -/
def vmafossexec_feature_entries (frames : List (List (String × ℚ))) :
    List (String × List ℚ) :=
  FEATURES.filterMap (fun feature =>
    let collected := frames.filterMap (fun frame => List.lookup feature frame)
    if collected ≠ [] then some (get_feature_scores_key feature, collected)
    else none)

/-- VmafossExecQualityRunner._get_quality_scores: per-frame records from the
parsed log, each an attribute dictionary. A frame missing the vmaf
attribute is fatal, zero frames is fatal, and the result carries the final
scores plus the nonempty per-feature sequences. -/
def vmafossexec_quality_scores (frames : List (List (String × ℚ))) :
    Option (List (String × List ℚ)) :=
  match vmaf_scores_of_frames frames with
  | none => none
  | some scores =>
    if scores.length ≠ 0 then
      some ((get_scores_key VMAFOSSEXEC_TYPE, scores)
        :: vmafossexec_feature_entries frames)
    else none

/-- Modelled from the spec: VmafFeatureExtractor.get_scores_key is defined
in feature_extractor.py, outside the given source; the spec's result-key
scheme gives the sub-feature scores field as the extractor type, an
underscore, the feature name, and the _scores suffix, with extractor type
VMAF_feature. -/
def vmaf_feature_scores_key (feature_name : String) : String :=
  "VMAF_feature_" ++ feature_name ++ "_scores"

/-- VmafSingleFeatureQualityRunner._run_on_asset, reduced to its data flow:
look up the declared feature's score sequence in the feature result (a
missing key raises in the source, modelled as none) and republish it
unchanged under the runner's scores key. -/
def single_feature_run_on_asset (ty feature_name : String)
    (feature_result : List (String × List ℚ)) :
    Option (List (String × List ℚ)) :=
  match List.lookup (vmaf_feature_scores_key feature_name) feature_result with
  | none => none
  | some seq => some [(get_scores_key ty, seq)]

/-- C1: the legacy post-correction leaves the score unchanged in factor when
the motion value is at most 12, and otherwise multiplies it by
1 + (min(motion, 20) - 12) * 0.015; the result is then clipped into 0..100,
so the returned score always lies in 0..100; in particular motion 10 gives
factor 1, motion 17 gives factor 1.075 and motion 25 gives factor 1.12. -/
theorem post_correction_spec :
    (∀ m s : ℚ, post_correction m s =
      (let corrected := if m ≤ 12 then s else s * (1 + (min m 20 - 12) * 0.015)
       if corrected > 100 then (100 : ℚ)
       else if corrected < 0 then (0 : ℚ)
       else corrected))
    ∧ (∀ m s : ℚ, 0 ≤ post_correction m s ∧ post_correction m s ≤ 100)
    ∧ post_correction 10 50 = 50 * 1
    ∧ post_correction 17 40 = 40 * 1.075
    ∧ post_correction 25 50 = 50 * 1.12 := by
  have hcore : ∀ m s : ℚ,
      (if m > 12 then
        s * (((if m > 20 then (20 : ℚ) else m) - 12) * 0.015 + 1)
      else s)
      = (if m ≤ 12 then s else s * (1 + (min m 20 - 12) * 0.015)) := by
    intro m s
    rcases le_or_lt m 12 with h | h
    · rw [if_neg (not_lt.mpr h), if_pos h]
    · rw [if_pos h, if_neg (not_le.mpr h)]
      rcases le_or_lt m 20 with h20 | h20
      · rw [if_neg (not_lt.mpr h20), min_eq_left h20]
        ring
      · rw [if_pos h20, min_eq_right h20.le]
        ring
  refine ⟨?_, ?_, ?_, ?_, ?_⟩
  · intro m s
    simp only [post_correction]
    rw [hcore m s]
  · intro m s
    simp only [post_correction]
    split_ifs <;> (try norm_num at *) <;> (try constructor) <;> linarith
  · norm_num [post_correction]
  · norm_num [post_correction]
  · norm_num [post_correction]

/-- C2: when the model declares a transform specification, transform_score
computes p0 + p1 * y + p2 * y^2 elementwise with missing coefficients
treated as 0, then clamps the output to at most the input when out_lte_in
is set and to at least the input when out_gte_in is set (both may coexist);
with no transform specification the input is returned unchanged; with
p0 = 1, p1 = 1, p2 = 0.5 and input 2 the output is 5, and with out_lte_in
additionally set the output is 2. -/
theorem transform_score_spec :
    (∀ (model : TTModel) (td : TransformDict) (ys : List ℚ),
      model.score_transform = some td →
      transform_score model ys = ys.map (fun y =>
        let y_poly := td.p0.getD 0 + td.p1.getD 0 * y + td.p2.getD 0 * (y * y)
        let y_lte := if pyEqStrTrueOpt td.out_lte_in then min y_poly y else y_poly
        if pyEqStrTrueOpt td.out_gte_in then max y_lte y else y_lte))
    ∧ (∀ (model : TTModel) (ys : List ℚ),
      model.score_transform = none → transform_score model ys = ys)
    ∧ transform_score ⟨fun _ => [], some ⟨some 1, some 1, some 0.5, none, none⟩, none⟩ [2] = [5]
    ∧ transform_score ⟨fun _ => [],
        some ⟨some 1, some 1, some 0.5, some (PyVal.pystr "true"), none⟩, none⟩ [2] = [2] := by
  refine ⟨?_, ?_, ?_, ?_⟩
  · intro model td ys hmt
    simp only [transform_score, hmt]
    congr 1
    funext y
    rcases td with ⟨p0, p1, p2, lte, gte⟩
    rcases p0 with _ | c0 <;> rcases p1 with _ | c1 <;> rcases p2 with _ | c2 <;>
      simp only [Option.getD_none, Option.getD_some] <;>
      split_ifs <;> ring_nf
  · intro model ys hmt
    simp only [transform_score, hmt]
  · norm_num [transform_score, pyEqStrTrueOpt]
  · norm_num [transform_score, pyEqStrTrueOpt, pyEqStrTrue]

/-- Witness for C2: the transform formula instantiated at the concrete model
of the spec example. -/
theorem transform_score_spec_witness :
    transform_score ⟨fun _ => [], some ⟨some 1, some 1, some 0.5, none, none⟩, none⟩ [2]
      = [5] := by
  have h := transform_score_spec.1
    ⟨fun _ => [], some ⟨some 1, some 1, some 0.5, none, none⟩, none⟩
    ⟨some 1, some 1, some 0.5, none, none⟩ [2] rfl
  rw [h]
  norm_num [pyEqStrTrueOpt]

/-- C3: predict_with_model calls the model's predict, applies the transform
step only when the enable flag is set (off by default), then applies the
clip step unless the disable flag is set; the clip step clips elementwise
into the model's declared bounds and is a no-op without declared bounds;
bounds (0, 100) on raw predictions -5, 50, 150 yield 0, 50, 100. -/
theorem predict_with_model_spec :
    (∀ (model : TTModel) (xs : List (List ℚ)) (kw : Kwargs),
      predict_with_model model xs kw =
        (let y1 := model.predict xs
         let y2 := if kw.enable_transform_score = some (PyVal.pybool true)
                   then transform_score model y1 else y1
         if kw.disable_clip_score = some (PyVal.pybool true) then y2
         else clip_score model y2))
    ∧ (∀ (model : TTModel) (xs : List (List ℚ)),
      predict_with_model model xs ⟨none, none⟩ = clip_score model (model.predict xs))
    ∧ (∀ (model : TTModel) (ys : List ℚ), model.score_clip = none → clip_score model ys = ys)
    ∧ clip_score ⟨fun _ => [], none, some (0, 100)⟩ [-5, 50, 150] = [0, 50, 100] := by
  refine ⟨?_, ?_, ?_, ?_⟩
  · intro model xs kw
    rcases kw with ⟨dc, et⟩
    simp only [predict_with_model, predict_with_model_core, do_transform_score]
    rcases et with _ | v
    · simp
    · rcases v with b | s | q | _
      · cases b <;> simp
      · simp
      · simp
      · simp
  · intro model xs
    simp [predict_with_model, predict_with_model_core, do_transform_score]
  · intro model ys hmc
    simp [clip_score, hmc]
  · norm_num [clip_score, npClip]

/-- Witness for C3: the clip step is a no-op on a model without declared
clip bounds. -/
theorem predict_with_model_spec_witness :
    clip_score ⟨fun _ => [], none, none⟩ [7] = [7] :=
  predict_with_model_spec.2.2.1 ⟨fun _ => [], none, none⟩ [7] rfl

/-- C4: under lower < upper, rescale returns elementwise
(clip(v, lower, upper) - lower) / (upper - lower); inside the bounds the
rescaled value lies in the unit interval and is monotone non-decreasing,
values below lower map to 0 and values above upper map to 1. -/
theorem rescale_spec (vals : List ℚ) (l u : ℚ) (h : l < u) :
    rescale vals (l, u) = vals.map (fun v => (npClip v l u - l) / (u - l))
    ∧ (∀ v, l ≤ v → v ≤ u →
        0 ≤ (npClip v l u - l) / (u - l) ∧ (npClip v l u - l) / (u - l) ≤ 1)
    ∧ (∀ v w, v ≤ w → (npClip v l u - l) / (u - l) ≤ (npClip w l u - l) / (u - l))
    ∧ (∀ v, v < l → (npClip v l u - l) / (u - l) = 0)
    ∧ (∀ v, u < v → (npClip v l u - l) / (u - l) = 1) := by
  have hul : (0 : ℚ) < u - l := sub_pos.mpr h
  refine ⟨rfl, ?_, ?_, ?_, ?_⟩
  · intro v hv1 hv2
    have hcl : npClip v l u = v := by
      simp [npClip, max_eq_left hv1, min_eq_left hv2]
    rw [hcl]
    constructor
    · exact div_nonneg (by linarith) hul.le
    · rw [div_le_one hul]
      linarith
  · intro v w hvw
    have hmono : npClip v l u ≤ npClip w l u :=
      min_le_min (max_le_max hvw le_rfl) le_rfl
    gcongr
  · intro v hv
    have hcl : npClip v l u = l := by
      simp [npClip, max_eq_right hv.le, min_eq_left h.le]
    rw [hcl, sub_self, zero_div]
  · intro v hv
    have hcl : npClip v l u = u := by
      simp [npClip, max_eq_left (h.trans hv).le, min_eq_right hv.le]
    rw [hcl, div_self hul.ne']

/-- Witness for C4: the rescale characterisation at bounds 0 and 2. -/
theorem rescale_spec_witness :
    rescale [(-1 : ℚ), 1, 3] (0, 2)
      = [(-1 : ℚ), 1, 3].map (fun v => (npClip v 0 2 - 0) / (2 - 0)) :=
  (rescale_spec [(-1 : ℚ), 1, 3] 0 2 (by norm_num)).1

/-- C5: the phone variant behaves like the general regression path with the
transform decision unconditionally true, and its argument validation fails
for every configuration that explicitly contains the enable-transform key,
whatever its value. -/
theorem phone_runner_spec :
    (∀ kw : Kwargs, phone_do_transform_score kw = true)
    ∧ (∀ (model : TTModel) (xs : List (List ℚ)) (kw : Kwargs),
        phone_predict_with_model model xs kw =
          predict_with_model model xs ⟨kw.disable_clip_score, some (PyVal.pybool true)⟩)
    ∧ (∀ kw : Kwargs, kw.enable_transform_score ≠ none → phone_assert_args (some kw) = false)
    ∧ phone_assert_args none = true
    ∧ (∀ kw : Kwargs, kw.enable_transform_score = none → phone_assert_args (some kw) = true) := by
  refine ⟨fun _ => rfl, ?_, ?_, rfl, ?_⟩
  · intro model xs kw
    rcases kw with ⟨dc, et⟩
    simp [phone_predict_with_model, predict_with_model, predict_with_model_core,
      phone_do_transform_score, do_transform_score]
  · intro kw hne
    simp [phone_assert_args, hne]
  · intro kw he
    simp [phone_assert_args, he]

/-- Witness for C5: validation fails with the flag explicitly present and
passes with it absent. -/
theorem phone_runner_spec_witness :
    phone_assert_args (some ⟨none, some (PyVal.pybool true)⟩) = false
    ∧ phone_assert_args (some ⟨none, none⟩) = true :=
  ⟨phone_runner_spec.2.2.1 ⟨none, some (PyVal.pybool true)⟩ (by simp),
   phone_runner_spec.2.2.2.2 ⟨none, none⟩ rfl⟩

theorem psnr_scan_eq (records : List (Option (ℕ × ℚ))) (counter : ℕ) :
    psnr_scan records counter =
      (if (records.filterMap id).map Prod.fst
          = List.range' counter (records.filterMap id).length
       then some ((records.filterMap id).map Prod.snd)
       else none) := by
  induction records generalizing counter with
  | nil => simp [psnr_scan]
  | cons r rest ih =>
    rcases r with _ | ⟨i, v⟩
    · simpa [psnr_scan] using ih counter
    · simp only [psnr_scan, List.filterMap_cons, id_eq]
      rw [ih (counter + 1)]
      by_cases hic : i = counter
      · subst hic
        by_cases hrest :
            (rest.filterMap id).map Prod.fst = List.range' (i + 1) (rest.filterMap id).length
        · simp [hrest, List.range'_succ]
        · simp [hrest, List.range'_succ]
      · simp [hic, List.range'_succ]

/-- C6: the plain-text log parser succeeds exactly when the matched lines
carry frame indices forming a contiguous 0-based run and at least one line
matches, returning the matched values in line order under the PSNR scores
key; a gap, repeat or out-of-order index is fatal, and zero matched lines
is fatal. -/
theorem psnr_quality_scores_spec :
    (∀ records : List (Option (ℕ × ℚ)),
      psnr_quality_scores records =
        (if (records.filterMap id).map Prod.fst = List.range (records.filterMap id).length
            ∧ records.filterMap id ≠ []
         then some [(get_scores_key PSNR_TYPE, (records.filterMap id).map Prod.snd)]
         else none))
    ∧ psnr_quality_scores [some (0, 30.1), some (1, 31.4)]
        = some [("PSNR_scores", [30.1, 31.4])]
    ∧ psnr_quality_scores [some (0, 30.1), some (2, 31.4)] = none
    ∧ psnr_quality_scores [none, none] = none := by
  refine ⟨?_, rfl, rfl, rfl⟩
  intro records
  have h0 := psnr_scan_eq records 0
  rw [← List.range_eq_range'] at h0
  unfold psnr_quality_scores
  rw [h0]
  by_cases hidx :
      (records.filterMap id).map Prod.fst = List.range (records.filterMap id).length
  · rw [if_pos hidx]
    by_cases hne : records.filterMap id = []
    · simp [hne]
    · have hlen : ((records.filterMap id).map Prod.snd).length ≠ 0 := by
        rw [List.length_map]
        intro hh
        exact hne (List.length_eq_zero.mp hh)
      simp [hidx, hne, hlen]
  · rw [if_neg hidx]
    simp [hidx]

theorem vmaf_scores_of_frames_eq_none (frames : List (List (String × ℚ)))
    (fr : List (String × ℚ)) (hmem : fr ∈ frames)
    (hnone : List.lookup "vmaf" fr = none) :
    vmaf_scores_of_frames frames = none := by
  induction frames with
  | nil => cases hmem
  | cons f rest ih =>
    rcases List.mem_cons.mp hmem with rfl | hmem2
    · simp [vmaf_scores_of_frames, hnone]
    · cases hl : List.lookup "vmaf" f <;> simp [vmaf_scores_of_frames, hl, ih hmem2]

theorem feature_key_ne_scores_key :
    ∀ f ∈ FEATURES, get_feature_scores_key f ≠ get_scores_key VMAFOSSEXEC_TYPE := by
  decide

theorem feature_key_injective :
    ∀ f1 ∈ FEATURES, ∀ f2 ∈ FEATURES,
      get_feature_scores_key f1 = get_feature_scores_key f2 → f1 = f2 := by
  decide

/-- C7: for the combined native-output parser, a frame record missing the
final vmaf attribute is fatal and zero frames is fatal; a frame missing an
optional sub-feature is tolerated (its value is skipped), so three frames
where one lacks a sub-feature yield length 2 for that sub-feature and
length 3 for the final score, and a sub-feature absent from all frames is
omitted from the result entirely. -/
theorem vmafossexec_quality_scores_spec :
    (∀ (frames : List (List (String × ℚ))) (fr : List (String × ℚ)),
      fr ∈ frames → List.lookup "vmaf" fr = none →
      vmafossexec_quality_scores frames = none)
    ∧ vmafossexec_quality_scores [] = none
    ∧ (∀ (frames : List (List (String × ℚ))) (res : List (String × List ℚ)) (feature : String),
        vmafossexec_quality_scores frames = some res →
        feature ∈ FEATURES →
        (∀ fr ∈ frames, List.lookup feature fr = none) →
        ∀ seq : List ℚ, (get_feature_scores_key feature, seq) ∉ res)
    ∧ vmafossexec_quality_scores
        [[("vmaf", 90), ("motion", 3)], [("vmaf", 80)], [("vmaf", 70), ("motion", 5)]]
      = some [("VMAFOSSEXEC_scores", [90, 80, 70]), ("VMAFOSSEXEC_motion_scores", [3, 5])] := by
  refine ⟨?_, rfl, ?_, by decide⟩
  · intro frames fr hmem hnone
    simp [vmafossexec_quality_scores, vmaf_scores_of_frames_eq_none frames fr hmem hnone]
  · intro frames res feature hres hfeat hnone seq hmem
    unfold vmafossexec_quality_scores at hres
    split at hres
    · exact Option.noConfusion hres
    · split at hres
      case isFalse => exact Option.noConfusion hres
      case isTrue =>
        obtain rfl := (Option.some.inj hres).symm
        rcases List.mem_cons.mp hmem with heq | hmem2
        · exact feature_key_ne_scores_key feature hfeat (congrArg Prod.fst heq)
        · obtain ⟨feat2, hf2mem, hf2⟩ := List.mem_filterMap.mp hmem2
          simp only [vmafossexec_feature_entries] at hf2 ⊢
          by_cases hcol : frames.filterMap (fun frame => List.lookup feat2 frame) ≠ []
          · rw [if_pos hcol] at hf2
            have hpair := Option.some.inj hf2
            have hkey : get_feature_scores_key feat2 = get_feature_scores_key feature :=
              congrArg Prod.fst hpair
            obtain rfl := feature_key_injective feat2 hf2mem feature hfeat hkey
            exact hcol (List.filterMap_eq_nil_iff.mpr hnone)
          · rw [if_neg hcol] at hf2
            exact Option.noConfusion hf2

/-- Witness for C7: a frame without the vmaf attribute is fatal, and the
ssim sub-feature, absent from every frame of the example, is omitted from
the parsed result. -/
theorem vmafossexec_quality_scores_spec_witness :
    vmafossexec_quality_scores [[("motion", (3 : ℚ))]] = none
    ∧ (get_feature_scores_key "ssim", ([] : List ℚ))
        ∉ [(get_scores_key VMAFOSSEXEC_TYPE, [(90 : ℚ), 80, 70]),
           (get_feature_scores_key "motion", [(3 : ℚ), 5])] := by
  constructor
  · exact vmafossexec_quality_scores_spec.1 [[("motion", (3 : ℚ))]]
      [("motion", (3 : ℚ))] (by simp) rfl
  · exact vmafossexec_quality_scores_spec.2.2.1
      [[("vmaf", 90), ("motion", 3)], [("vmaf", 80)], [("vmaf", 70), ("motion", 5)]]
      [(get_scores_key VMAFOSSEXEC_TYPE, [(90 : ℚ), 80, 70]),
       (get_feature_scores_key "motion", [(3 : ℚ), 5])]
      "ssim" (by decide) (by decide) (by decide) []

/-- C8: a single-feature passthrough variant maps its derived scores key to
the requested feature's per-frame sequence unchanged, with no regression,
transform, rectification, clipping or correction applied. -/
theorem single_feature_run_spec :
    (∀ (ty feature_name : String) (feature_result : List (String × List ℚ)) (seq : List ℚ),
      List.lookup (vmaf_feature_scores_key feature_name) feature_result = some seq →
      single_feature_run_on_asset ty feature_name feature_result
        = some [(get_scores_key ty, seq)])
    ∧ (∀ (ty feature_name : String) (feature_result : List (String × List ℚ)),
      List.lookup (vmaf_feature_scores_key feature_name) feature_result = none →
      single_feature_run_on_asset ty feature_name feature_result = none)
    ∧ get_scores_key "ADM2" = "ADM2_scores"
    ∧ vmaf_feature_scores_key "adm2" = "VMAF_feature_adm2_scores"
    ∧ single_feature_run_on_asset "ADM2" "adm2"
        [("VMAF_feature_adm2_scores", [1 / 2, 3 / 4])]
      = some [("ADM2_scores", [1 / 2, 3 / 4])] := by
  refine ⟨?_, ?_, rfl, rfl, rfl⟩
  · intro ty feature_name feature_result seq hl
    simp [single_feature_run_on_asset, hl]
  · intro ty feature_name feature_result hl
    simp [single_feature_run_on_asset, hl]

/-- Witness for C8: the passthrough at the concrete ADM2 variant. -/
theorem single_feature_run_spec_witness :
    single_feature_run_on_asset "ADM2" "adm2" [("VMAF_feature_adm2_scores", [9])]
      = some [(get_scores_key "ADM2", [9])] :=
  single_feature_run_spec.1 "ADM2" "adm2" [("VMAF_feature_adm2_scores", [9])] [9] (by decide)

/-- C9: a rectification entry whose value is not exactly the string true,
including the boolean True, triggers no rectification clamp: the transform
output is the same as with the entry absent; with p0 = 10, input 2 and
out_lte_in mapped to boolean True the output stays 10, while the string
true clamps it to 2. -/
theorem transform_rectification_exact_string :
    (∀ (td : TransformDict) (v : PyVal) (ys : List ℚ), v ≠ PyVal.pystr "true" →
      transform_score ⟨fun _ => [], some ⟨td.p0, td.p1, td.p2, some v, td.out_gte_in⟩, none⟩ ys
        = transform_score ⟨fun _ => [], some ⟨td.p0, td.p1, td.p2, none, td.out_gte_in⟩, none⟩ ys)
    ∧ (∀ (td : TransformDict) (v : PyVal) (ys : List ℚ), v ≠ PyVal.pystr "true" →
      transform_score ⟨fun _ => [], some ⟨td.p0, td.p1, td.p2, td.out_lte_in, some v⟩, none⟩ ys
        = transform_score ⟨fun _ => [], some ⟨td.p0, td.p1, td.p2, td.out_lte_in, none⟩, none⟩ ys)
    ∧ transform_score
        ⟨fun _ => [], some ⟨some 10, none, none, some (PyVal.pybool true), none⟩, none⟩ [2]
      = [10]
    ∧ transform_score
        ⟨fun _ => [], some ⟨some 10, none, none, some (PyVal.pystr "true"), none⟩, none⟩ [2]
      = [2] := by
  have hfalse : ∀ v : PyVal, v ≠ PyVal.pystr "true" → pyEqStrTrue v = false := by
    intro v hv
    cases v with
    | pystr s =>
      have hs : s ≠ "true" := fun h => hv (by rw [h])
      simp [pyEqStrTrue, hs]
    | pybool b => rfl
    | pynum q => rfl
    | pynone => rfl
  refine ⟨?_, ?_, ?_, ?_⟩
  · intro td v ys hv
    simp [transform_score, pyEqStrTrueOpt, hfalse v hv]
  · intro td v ys hv
    simp [transform_score, pyEqStrTrueOpt, hfalse v hv]
  · norm_num [transform_score, pyEqStrTrueOpt, pyEqStrTrue]
  · norm_num [transform_score, pyEqStrTrueOpt, pyEqStrTrue]

/-- Witness for C9: replacing a boolean-True rectification entry by an
absent one leaves the transform output unchanged. -/
theorem transform_rectification_exact_string_witness :
    transform_score
        ⟨fun _ => [], some ⟨some 10, none, none, some (PyVal.pybool true), none⟩, none⟩ [2]
      = transform_score ⟨fun _ => [], some ⟨some 10, none, none, none, none⟩, none⟩ [2] :=
  transform_rectification_exact_string.1
    ⟨some 10, none, none, none, none⟩ (PyVal.pybool true) [2] (by decide)

/-- C10: the rescale linear map is only well-defined under lower < upper:
that hypothesis makes the divisor nonzero and validates the elementwise
characterisation, while at lower = upper the divisor is literally zero and
the total rational embedding degenerates to the zero map for every input. -/
theorem rescale_requires_lower_lt_upper :
    (∀ l u : ℚ, l < u → u - l ≠ 0 ∧
      ∀ vals : List ℚ,
        rescale vals (l, u) = vals.map (fun v => (npClip v l u - l) / (u - l)))
    ∧ (∀ (l : ℚ) (vals : List ℚ),
        l - l = 0 ∧ rescale vals (l, l) = vals.map (fun _ => 0)) := by
  constructor
  · intro l u h
    exact ⟨(sub_pos.mpr h).ne', fun vals => rfl⟩
  · intro l vals
    refine ⟨sub_self l, ?_⟩
    unfold rescale
    congr 1
    funext v
    have hcl : npClip v l l = l := by
      simp [npClip, min_eq_right (le_max_right v l)]
    rw [hcl, sub_self]
    exact zero_div 0

/-- Witness for C10: the guarded characterisation at bounds 0 and 2. -/
theorem rescale_requires_lower_lt_upper_witness :
    ((2 : ℚ) - 0 ≠ 0)
    ∧ rescale [3] ((0 : ℚ), 2) = [(3 : ℚ)].map (fun v => (npClip v 0 2 - 0) / (2 - 0)) :=
  ⟨(rescale_requires_lower_lt_upper.1 0 2 (by norm_num)).1,
   (rescale_requires_lower_lt_upper.1 0 2 (by norm_num)).2 [3]⟩

end VmafQR
